import Mathlib

/-!
A shallow embedding of the scheduling core of the `simple-requests` library
(`simple_requests/simple_requests.py`, `simple_requests/strategy.py`):
the request (task) queue with generation-based priority, the time-ordered
retry queue, the blocking response iterator, the dispatch-loop decision,
the retry strategies, and the stop protocol.

Python machine details are modelled as follows: time instants and delays are
rationals (ℚ); exceptions are the inductive `PyErr`; the HTTP collaborator's
objects (`Request`, `PreparedRequest`) are abstracted to `Nat` identifiers;
`OrderedDict` is an association list in insertion order.
-/

set_option autoImplicit false

namespace SimpleRequests

/-- Exceptions relevant to the engine: `HTTPError` (status ≥ 400, raised by
`RetryStrategy.verify`), `GreenletExit` (a worker killed in flight), a build
`TypeError` (unsupported request type in `Requests._run`), and any other
exception (transport errors, errors raised while preparing a request). -/
inductive PyErr where
  | httpError (status : Nat)
  | greenletExit
  | typeError
  | otherError (code : Nat)
deriving DecidableEq, Repr

/-- `isinstance(e, HTTPError)` on an optional exception. -/
def isHTTP : Option PyErr → Bool
  | some (.httpError _) => true
  | _ => false

/-- The duck-typed request slot of a `Bundle`: a `basestring`, a
`requests.Request`, a `requests.PreparedRequest`, or anything else
(which the build step rejects with a `TypeError`). -/
inductive ReqObject where
  | str (s : String)
  | request (r : Nat)
  | prepared (p : Nat)
  | other
deriving DecidableEq, Repr

/-- `Bundle`: the per-task execution context (`simple_requests.py`, class
`Bundle`). `request` is mutated from raw descriptor to prepared request;
`obj`/`hasobj` carry the correlation object of `Requests.each`. -/
structure Bundle where
  request : ReqObject
  response : Option Nat := none
  exception : Option PyErr := none
  hasTraceback : Bool := false
  obj : Option Nat := none
  hasobj : Bool := false
deriving DecidableEq, Repr

/-! ### Retry strategies (`strategy.py`) -/

/-- `RetryStrategy.retry`: the base strategy never retries. -/
def RetryStrategy.retry (_b : Bundle) (_numTries : Nat) : ℚ := -1

/-- `Strict.retry`: retry HTTP errors while `numTries < 3`, with a fixed
2-second delay; anything else gives up at once. -/
def Strict.retry (b : Bundle) (numTries : Nat) : ℚ :=
  if isHTTP b.exception && decide (numTries < 3) then 2 else -1

/-- `Lenient.retry`: one retry for any failure, further retries (up to
`numTries < 5`) for HTTP errors only, all after 60 seconds. -/
def Lenient.retry (b : Bundle) (numTries : Nat) : ℚ :=
  if numTries == 1 || (isHTTP b.exception && decide (numTries < 5)) then 60 else -1

/-- `Backoff.retry`: HTTP errors are retried with delay
`min(2**(numTries-2), 60)` while `numTries < 11` (the Python exponent is a
possibly-negative int, so the delay is the float `0.5` at `numTries = 1`);
other errors get a single retry after 10 seconds. -/
def Backoff.retry (b : Bundle) (numTries : Nat) : ℚ :=
  if isHTTP b.exception then
    if numTries < 11 then min ((2 : ℚ) ^ ((numTries : ℤ) - 2)) 60 else -1
  else
    if numTries == 1 then 10 else -1

/-! ### The response iterator (`_ResponseIterator`) -/

/-- The mutable state of a `_ResponseIterator`: `currentIndex` is
`some i` in ordered mode (`maintainOrder = True`, next expected ordinal)
and `none` in unordered mode; `responses` is the `OrderedDict` of buffered
outcomes in insertion (arrival) order; `inflight` counts dispatched but
undelivered attempts; `done` is the no-more-tasks flag. -/
structure IterState where
  currentIndex : Option Nat
  responses : List (Nat × Bundle)
  inflight : Int
  done : Bool
deriving DecidableEq, Repr

/-- `OrderedDict.__setitem__`: replace in place if the key exists, else
append at the end. -/
def odInsert (rs : List (Nat × Bundle)) (k : Nat) (b : Bundle) : List (Nat × Bundle) :=
  if rs.any (fun p => p.1 == k) then
    rs.map (fun p => if p.1 == k then (k, b) else p)
  else
    rs ++ [(k, b)]

/-- `OrderedDict.pop(k)` (key removal). -/
def odRemove (rs : List (Nat × Bundle)) (k : Nat) : List (Nat × Bundle) :=
  rs.filter (fun p => p.1 ≠ k)

/-- `_ResponseIterator._add(bundle, requestIndex)`: buffer the outcome and
decrement the in-flight count (the `Event.set` wake-up is implicit). -/
def iterAdd (st : IterState) (b : Bundle) (requestIndex : Nat) : IterState :=
  { st with responses := odInsert st.responses requestIndex b,
            inflight := st.inflight - 1 }

/-- Result of one pass of the `while True` loop in
`_ResponseIterator.next`. -/
inductive NextOutcome where
  | stopped
  | yielded (k : Nat) (b : Bundle) (st : IterState)
  | blocked
deriving DecidableEq, Repr

/-- The `found` logic of `_ResponseIterator.next`: in unordered mode pop the
first-inserted entry (`popitem(last = False)`); in ordered mode pop the entry
at `currentIndex` if present and advance `currentIndex`. -/
def findDeliverable (st : IterState) : Option ((Nat × Bundle) × IterState) :=
  match st.responses with
  | [] => none
  | p :: rest =>
    match st.currentIndex with
    | none => some (p, { st with responses := rest })
    | some i =>
      match (p :: rest).find? (fun q => q.1 == i) with
      | some q =>
          some (q, { st with responses := odRemove (p :: rest) i,
                             currentIndex := some (i + 1) })
      | none => none

/-- One pass of `_ResponseIterator.next`: raise `StopIteration` iff
`inflight == 0` and `done` and the buffer is empty; otherwise yield a
deliverable outcome or block on `_responseAdded.wait()` and loop. -/
def nextStep (st : IterState) : NextOutcome :=
  if st.inflight = 0 ∧ st.done ∧ st.responses = [] then
    .stopped
  else
    match findDeliverable st with
    | some (q, st') => .yielded q.1 q.2 st'
    | none => .blocked

/-! ### Interleaved delivery/consumption traces for one batch -/

/-- An observable event at one response iterator: a worker outcome arriving
through `_add`, or the consumer calling `next()` once.  (A `next()` call that
blocks or hits exhaustion consumes nothing.) -/
inductive BatchEv where
  | arrive (i : Nat) (b : Bundle)
  | consume
deriving DecidableEq, Repr

/-- Run a trace of events against an iterator state, collecting the
`(index, bundle)` pairs consumed, in consumption order. -/
def runTrace (st : IterState) : List BatchEv → IterState × List (Nat × Bundle)
  | [] => (st, [])
  | .arrive i b :: rest => runTrace (iterAdd st b i) rest
  | .consume :: rest =>
    match nextStep st with
    | .yielded k b st' =>
        let r := runTrace st' rest
        (r.1, (k, b) :: r.2)
    | _ => runTrace st rest

/-- The iterator state created for an ordered-mode batch
(`_ResponseIterator.__init__` with `maintainOrder = True`), with the
in-flight count already holding the whole batch (so exhaustion is not hit
mid-trace). -/
def orderedInit (pending : Int) : IterState :=
  { currentIndex := some 0, responses := [], inflight := pending, done := true }

/-! ### The task queue (`_RequestQueue`) -/

/-- One entry of `_RequestQueue.queue`:
`[requestIterator, nextRequest, responseIterator, group, requestIndex]`.
The Python request iterator is modelled by the list of its remaining
elements; a task is either a bare request object or a
`(request, correlation-object)` pair from `Requests.each`. -/
structure QEntry where
  pending : List (ReqObject × Option Nat)
  nextReq : ReqObject × Option Nat
  iter : IterState
  group : Nat
  requestIndex : Nat
deriving DecidableEq, Repr

/-- `_RequestQueue`: the entry list (most recent first) and the generation
counter `group`. -/
structure RequestQueue where
  queue : List QEntry
  group : Nat
deriving DecidableEq, Repr

/-- `_RequestQueue.add`: draw the first task eagerly; if the source is empty
(`StopIteration`), mark the iterator done and create no entry (the generation
counter is untouched); otherwise insert a new entry at position 0 carrying
the current `group` and increment `group`.  Returns the updated queue and,
in the empty case, the done-marked iterator handed back to the caller. -/
def RequestQueue.add (q : RequestQueue) (tasks : List (ReqObject × Option Nat))
    (it : IterState) : RequestQueue × Option IterState :=
  match tasks with
  | [] => (q, some { it with done := true })
  | t :: rest =>
      ({ queue := ⟨rest, t, it, q.group, 0⟩ :: q.queue, group := q.group + 1 },
       none)

/-- `_RequestQueue.getLatestGroup`: the head entry's generation, or none. -/
def RequestQueue.getLatestGroup (q : RequestQueue) : Option Nat :=
  q.queue.head?.map (·.group)

/-- The value returned by `_RequestQueue.pop`. -/
structure PopResult where
  request : ReqObject × Option Nat
  iter : IterState
  group : Nat
  requestIndex : Nat
deriving DecidableEq, Repr

/-- `_RequestQueue.pop`: return the pre-fetched task of the head entry,
increment that batch's in-flight count, and pre-fetch the following task;
if the source is exhausted, remove the entry and set the done flag (the
removed, done-marked iterator is returned as the third component). -/
def RequestQueue.pop (q : RequestQueue) :
    Option (PopResult × RequestQueue × Option IterState) :=
  match q.queue with
  | [] => none
  | e :: rest =>
    let it' : IterState := { e.iter with inflight := e.iter.inflight + 1 }
    let ret : PopResult := ⟨e.nextReq, it', e.group, e.requestIndex⟩
    match e.pending with
    | t :: ps =>
        let e' : QEntry :=
          { pending := ps, nextReq := t, iter := it', group := e.group,
            requestIndex := e.requestIndex + 1 }
        some (ret, { q with queue := e' :: rest }, none)
    | [] =>
        some (ret, { q with queue := rest }, some { it' with done := true })

/-- `_RequestQueue.stop`: pop every entry, mark each batch's iterator done
(waking it when nothing is in flight).  Returns the emptied queue and the
updated iterators. -/
def RequestQueue.stopAll (q : RequestQueue) : RequestQueue × List IterState :=
  ({ queue := [], group := q.group },
   q.queue.map (fun e => { e.iter with done := true }))

/-! ### The retry queue (`_RetryQueue`) -/

/-- One entry of `_RetryQueue.sortedqueue`:
`(bundle, responseIterator, group, requestIndex, numTries, nextAttempt)`.
The response iterator is abstracted to an identifier. -/
structure RetryEntry where
  bundle : Bundle
  iterId : Nat
  group : Nat
  requestIndex : Nat
  numTries : Nat
  nextAttempt : ℚ
deriving DecidableEq, Repr

/-- `_RetryQueue`: entries sorted by `nextAttempt` (the parallel `timelist`
is the map of `nextAttempt` over `sortedqueue` and is not duplicated). -/
structure RetryQueue where
  sortedqueue : List RetryEntry
deriving DecidableEq, Repr

/-- Insertion in time order after all entries with an equal or earlier
`nextAttempt` (`bisect_right` on `timelist`). -/
def insertByTime (e : RetryEntry) : List RetryEntry → List RetryEntry
  | [] => [e]
  | x :: xs =>
      if e.nextAttempt < x.nextAttempt then e :: x :: xs
      else x :: insertByTime e xs

/-- `_RetryQueue.add`: schedule the bundle at `now + wait` and insert in
time order. -/
def RetryQueue.add (q : RetryQueue) (b : Bundle) (iterId group requestIndex numTries : Nat)
    (wait now : ℚ) : RetryQueue :=
  ⟨insertByTime ⟨b, iterId, group, requestIndex, numTries, now + wait⟩ q.sortedqueue⟩

/-- The due slice `sortedqueue[:bisect_right(timelist, now + 0.001)]`:
on a time-sorted queue this is the prefix of entries scheduled at or before
`now` plus the small epsilon. -/
def RetryQueue.dueEntries (q : RetryQueue) (now : ℚ) : List RetryEntry :=
  q.sortedqueue.takeWhile (fun e => e.nextAttempt ≤ now + 1 / 1000)

/-- The running-maximum step of `_RetryQueue.getLatestGroup` (the stored
status is replaced only on a strictly larger group). -/
def optMax (acc : Option Nat) (g : Nat) : Option Nat :=
  match acc with
  | none => some g
  | some m => if m < g then some g else some m

/-- `_RetryQueue.getLatestGroup`: the maximum generation among due entries,
or none when no entry is due. -/
def RetryQueue.getLatestGroup (q : RetryQueue) (now : ℚ) : Option Nat :=
  ((q.dueEntries now).map (·.group)).foldl optMax none

/-- `_RetryQueue.stop`: drop every entry (each drop decrements the owning
iterator's in-flight count; iterators are abstract here), leaving the queue
empty. -/
def RetryQueue.stopAll (_q : RetryQueue) : RetryQueue := ⟨[]⟩

/-! ### The dispatch-loop decision (`Requests._run`) -/

/-- The queue-selection condition of `Requests._run`:
`retryGroup is None or (reqGroup is not None and reqGroup > retryGroup)`
takes from the task queue, otherwise from the retry queue.  (The loop only
reaches this test when at least one group is not none.) -/
def takeFromRequestQueue : Option Nat → Option Nat → Bool
  | _, none => true
  | none, some _ => false
  | some reqGroup, some retryGroup => retryGroup < reqGroup

/-! ### Building the prepared request (`Requests._run`, task-queue branch) -/

/-- The request-build cascade: a `basestring` becomes a GET `Request`
(`strToReq`), a `Request` is prepared by `session.prepare_request`
(`prepare`, which may raise), a `PreparedRequest` passes through, and any
other object raises a `TypeError`. -/
def buildRequest (prepare : Nat → Except PyErr Nat) (strToReq : String → Nat) :
    ReqObject → Except PyErr ReqObject
  | .str s =>
    match prepare (strToReq s) with
    | .ok p => .ok (.prepared p)
    | .error e => .error e
  | .request r =>
    match prepare r with
    | .ok p => .ok (.prepared p)
    | .error e => .error e
  | .prepared p => .ok (.prepared p)
  | .other => .error .typeError

/-- What the task-queue branch of `Requests._run` does with one popped task. -/
inductive DispatchOutcome where
  | deliveredBuildFailure (b : Bundle)
  | launched (b : Bundle)
deriving DecidableEq, Repr

/-- The task-queue branch of `Requests._run` after `pop` (with the default
`_skip`, which always returns `False`): wrap the task in a fresh `Bundle`
(attaching the correlation object when present), build the prepared request,
and on a build failure record the exception and traceback on the bundle and
deliver it directly to the response iterator — the retry strategy is never
consulted and the retry queue is untouched. -/
def taskDispatch (prepare : Nat → Except PyErr Nat) (strToReq : String → Nat)
    (task : ReqObject × Option Nat) (it : IterState) (requestIndex : Nat)
    (rq : RetryQueue) : DispatchOutcome × IterState × RetryQueue :=
  let bundle : Bundle :=
    { request := task.1, obj := task.2, hasobj := task.2.isSome }
  match buildRequest prepare strToReq bundle.request with
  | .error e =>
      let b' : Bundle := { bundle with exception := some e, hasTraceback := true }
      (.deliveredBuildFailure b', iterAdd it b' requestIndex, rq)
  | .ok p => (.launched { bundle with request := p }, it, rq)

/-! ### Routing a worker's outcome (`Requests._response`) -/

/-- What `Requests._response` does with a finished worker. -/
inductive RespAction where
  | deliver (b : Bundle) (requestIndex : Nat)
  | withdraw
  | enqueueRetry (wait : ℚ) (nextAttempt : ℚ) (numTries : Nat)
deriving DecidableEq, Repr

/-- `Requests._response`: increment `numTries`; a successful bundle is
delivered; a `GreenletExit` (killed in flight) only decrements the in-flight
count (`withdraw`); a failure under a soft stop (`status.stopped` set) is
delivered as-is without consulting the strategy; otherwise the strategy's
delay decides — non-negative enqueues into the retry queue scheduled at
`now + wait`, negative delivers the failure. -/
def responseRoute (strategy : Bundle → Nat → ℚ) (b : Bundle) (requestIndex : Nat)
    (numTriesPrev : Nat) (stopped : Bool) (now : ℚ) : RespAction :=
  let numTries := numTriesPrev + 1
  match b.exception with
  | none => .deliver b requestIndex
  | some .greenletExit => .withdraw
  | some _ =>
    if stopped then .deliver b requestIndex
    else
      let wait := strategy b numTries
      if 0 ≤ wait then .enqueueRetry wait (now + wait) numTries
      else .deliver b requestIndex

/-- Iterated attempts of one task whose every attempt fails, leaving the
bundle's exception unchanged: each attempt goes through `responseRoute`; an
`enqueueRetry` leads to the next attempt with the recorded `numTries` and
the scheduled wait collected, a delivery ends the run.  Returns the total
number of attempts and the list of scheduled retry delays.  `fuel` bounds
the recursion. -/
def attemptsRun (strategy : Bundle → Nat → ℚ) (b : Bundle) (requestIndex : Nat) :
    Nat → Nat → Nat × List ℚ
  | 0, numTriesPrev => (numTriesPrev, [])
  | fuel + 1, numTriesPrev =>
    match responseRoute strategy b requestIndex numTriesPrev false 0 with
    | .enqueueRetry wait _ numTries =>
        let r := attemptsRun strategy b requestIndex fuel numTries
        (r.1, wait :: r.2)
    | _ => (numTriesPrev + 1, [])

/-! ### Stopping (`Requests.stop`) -/

/-- What `Requests.stop` does to the worker pool. -/
inductive PoolAction where
  | killAll
  | tagStopped
deriving DecidableEq, Repr

/-- The queue state of one engine instance. -/
structure EngineState where
  requestQueue : RequestQueue
  retryQueue : RetryQueue
deriving DecidableEq, Repr

/-- `Requests.stop(killExecuting = True)`: clear both queues (marking request
batches done, dropping queued retries), then either kill every executing
worker or tag each one `stopped`.  Returns the new queue state, the
done-marked iterators of the cleared request-queue entries, and the pool
action. -/
def stopEngine (s : EngineState) (killExecuting : Bool := true) :
    EngineState × List IterState × PoolAction :=
  let rqs := s.requestQueue.stopAll
  (⟨rqs.1, s.retryQueue.stopAll⟩, rqs.2,
   if killExecuting then .killAll else .tagStopped)

/-! ### Sample values used to exercise the model at concrete inputs -/

/-- A bundle whose attempt failed with an HTTP 500 error. -/
def bundleHTTP : Bundle := { request := .other, exception := some (.httpError 500) }

/-- A bundle whose attempt failed with a non-HTTP (transport-style) error. -/
def bundleOther : Bundle := { request := .other, exception := some (.otherError 7) }

/-- A fresh ordered-mode iterator with nothing in flight and its batch done. -/
def iterSample : IterState :=
  { currentIndex := some 0, responses := [], inflight := 0, done := true }

/-- A trace where the outcome of slot 1 arrives before the outcome of
slot 0. -/
def sampleTrace : List BatchEv :=
  [.arrive 1 bundleHTTP, .consume, .arrive 0 bundleOther, .consume, .consume]

/-- A retry queue holding two due entries (groups 1 and 2). -/
def sampleRetryQueue : RetryQueue :=
  ⟨[⟨bundleHTTP, 0, 1, 0, 1, 5⟩, ⟨bundleOther, 1, 2, 0, 1, 6⟩]⟩

/-- An engine state with one pending batch and the sample retry queue. -/
def engineSample : EngineState :=
  ⟨⟨[⟨[(.other, none)], (.other, none), iterSample, 0, 0⟩], 1⟩, sampleRetryQueue⟩

/-- A `session.prepare_request` collaborator that never raises. -/
def prepareOk : Nat → Except PyErr Nat := fun n => .ok n

/-- The structural invariant of `_RequestQueue` maintained by `Requests`:
entries are ordered by strictly descending generation (so the head is the
most recent batch), and every stored generation is below the counter. -/
def RequestQueue.Inv (q : RequestQueue) : Prop :=
  q.queue.Pairwise (fun a b => b.group < a.group) ∧ ∀ e ∈ q.queue, e.group < q.group

/-! ### Helper lemmas -/

/-- The entry just scheduled is in the retry queue after `insertByTime`. -/
theorem insertByTime_self_mem (x : RetryEntry) (l : List RetryEntry) :
    x ∈ insertByTime x l := by
  induction l with
  | nil => simp [insertByTime]
  | cons y ys ih =>
    by_cases h : x.nextAttempt < y.nextAttempt <;> simp [insertByTime, h, ih]

/-- Anything stored by `odInsert` was already buffered or is the new pair. -/
theorem odInsert_mem (rs : List (Nat × Bundle)) (k : Nat) (b : Bundle)
    (p : Nat × Bundle) (hp : p ∈ odInsert rs k b) : p ∈ rs ∨ p = (k, b) := by
  unfold odInsert at hp
  split at hp
  · obtain ⟨x, hx, hxe⟩ := List.mem_map.mp hp
    by_cases hk : x.1 == k
    · right
      rw [if_pos hk] at hxe
      exact hxe.symm
    · left
      rw [if_neg hk] at hxe
      exact hxe ▸ hx
  · rcases List.mem_append.mp hp with h | h
    · left; exact h
    · right; simpa using h

/-- A yielded outcome of `nextStep` comes from `findDeliverable`. -/
theorem nextStep_yielded (st : IterState) (k : Nat) (b : Bundle) (st' : IterState)
    (hn : nextStep st = .yielded k b st') :
    findDeliverable st = some ((k, b), st') := by
  unfold nextStep at hn
  split at hn
  · exact absurd hn (by simp)
  · cases hf : findDeliverable st with
    | none => rw [hf] at hn; exact absurd hn (by simp)
    | some qs =>
      rw [hf] at hn
      simp only [NextOutcome.yielded.injEq] at hn
      obtain ⟨rfl, rfl, rfl⟩ := hn
      rfl

/-- In ordered mode `findDeliverable` pops exactly the expected index,
advances it by one, and only shrinks the buffer. -/
theorem findDeliverable_ordered (st : IterState) (c : Nat) (q : Nat × Bundle)
    (st' : IterState) (hc : st.currentIndex = some c)
    (hf : findDeliverable st = some (q, st')) :
    q.1 = c ∧ st'.currentIndex = some (c + 1) ∧ q ∈ st.responses ∧
    ∀ p ∈ st'.responses, p ∈ st.responses := by
  unfold findDeliverable at hf
  cases hr : st.responses with
  | nil => rw [hr] at hf; exact absurd hf (by simp)
  | cons p rest =>
    rw [hr, hc] at hf
    dsimp only at hf
    cases hfind : (p :: rest).find? (fun x => x.1 == c) with
    | none => rw [hfind] at hf; exact absurd hf (by simp)
    | some q0 =>
      rw [hfind] at hf
      simp only [Option.some.injEq, Prod.mk.injEq] at hf
      obtain ⟨rfl, rfl⟩ := hf
      refine ⟨by simpa using List.find?_some hfind, rfl, ?_, ?_⟩
      · exact List.mem_of_find?_eq_some hfind
      · intro x hx
        simp only [odRemove] at hx
        exact List.mem_of_mem_filter hx

/-- Main ordered-mode trace lemma: starting at expected index `c`, the
consumed indices of any trace are `c, c+1, …`, the expected index advances
by one per yield, and every consumed pair was buffered initially or arrived
in the trace. -/
theorem runTrace_ordered (tr : List BatchEv) :
    ∀ (st : IterState) (c : Nat), st.currentIndex = some c →
      (runTrace st tr).2.map Prod.fst = List.range' c (runTrace st tr).2.length ∧
      (runTrace st tr).1.currentIndex = some (c + (runTrace st tr).2.length) ∧
      ∀ p ∈ (runTrace st tr).2, p ∈ st.responses ∨ BatchEv.arrive p.1 p.2 ∈ tr := by
  induction tr with
  | nil =>
    intro st c hc
    simp [runTrace, hc]
  | cons ev rest ih =>
    intro st c hc
    cases ev with
    | arrive i b =>
      have heq : runTrace st (.arrive i b :: rest) = runTrace (iterAdd st b i) rest := rfl
      have hc' : (iterAdd st b i).currentIndex = some c := hc
      obtain ⟨h1, h2, h3⟩ := ih (iterAdd st b i) c hc'
      rw [heq]
      refine ⟨h1, h2, ?_⟩
      intro p hp
      rcases h3 p hp with hmem | harr
      · rcases odInsert_mem st.responses i b p hmem with h | h
        · exact Or.inl h
        · exact Or.inr (by rw [h]; exact List.mem_cons_self _ _)
      · exact Or.inr (List.mem_cons_of_mem _ harr)
    | consume =>
      cases hn : nextStep st with
      | stopped =>
        have heq : runTrace st (.consume :: rest) = runTrace st rest := by
          rw [runTrace, hn]
        obtain ⟨h1, h2, h3⟩ := ih st c hc
        rw [heq]
        exact ⟨h1, h2, fun p hp => (h3 p hp).imp id (List.mem_cons_of_mem _)⟩
      | blocked =>
        have heq : runTrace st (.consume :: rest) = runTrace st rest := by
          rw [runTrace, hn]
        obtain ⟨h1, h2, h3⟩ := ih st c hc
        rw [heq]
        exact ⟨h1, h2, fun p hp => (h3 p hp).imp id (List.mem_cons_of_mem _)⟩
      | yielded k b st' =>
        have hf := nextStep_yielded st k b st' hn
        obtain ⟨hk, hc', hqmem, hsub⟩ := findDeliverable_ordered st c (k, b) st' hc hf
        have heq : runTrace st (.consume :: rest) =
            ((runTrace st' rest).1, (k, b) :: (runTrace st' rest).2) := by
          rw [runTrace, hn]
        obtain ⟨h1, h2, h3⟩ := ih st' (c + 1) hc'
        rw [heq]
        dsimp only at hk ⊢
        subst hk
        refine ⟨?_, ?_, ?_⟩
        · simpa [List.range'] using h1
        · rw [h2]
          simp only [List.length_cons]
          congr 1
          omega
        · intro p hp
          rcases List.mem_cons.mp hp with rfl | hp
          · exact Or.inl hqmem
          · rcases h3 p hp with hmem | harr
            · exact Or.inl (hsub p hmem)
            · exact Or.inr (List.mem_cons_of_mem _ harr)

/-- The running maximum of `_RetryQueue.getLatestGroup` is a maximum. -/
theorem optMax_some (m g : Nat) : optMax (some m) g = some (max m g) := by
  rcases Nat.lt_trichotomy m g with h | h | h <;>
    simp [optMax, h, Nat.max_eq_right, Nat.max_eq_left, le_of_lt]

/-- Folding `optMax` from a seed computes the `max`-fold. -/
theorem foldl_optMax_some (l : List Nat) (m : Nat) :
    l.foldl optMax (some m) = some (l.foldl max m) := by
  induction l generalizing m with
  | nil => rfl
  | cons x xs ih => simp [List.foldl_cons, optMax_some, ih]

/-- The `max`-fold bounds its seed and every element. -/
theorem foldl_max_le (l : List Nat) (m : Nat) :
    m ≤ l.foldl max m ∧ ∀ x ∈ l, x ≤ l.foldl max m := by
  induction l generalizing m with
  | nil => simp
  | cons y ys ih =>
    refine ⟨le_trans (le_max_left m y) (ih (max m y)).1, ?_⟩
    intro x hx
    rcases List.mem_cons.mp hx with rfl | hx
    · exact le_trans (le_max_right m x) (ih (max m x)).1
    · exact (ih (max m y)).2 x hx

/-- The `max`-fold is the seed or one of the elements. -/
theorem foldl_max_mem (l : List Nat) (m : Nat) :
    l.foldl max m = m ∨ l.foldl max m ∈ l := by
  induction l generalizing m with
  | nil => simp
  | cons y ys ih =>
    rcases ih (max m y) with h | h
    · rcases Nat.le_total m y with hmy | hmy
      · right
        rw [List.foldl_cons, h, Nat.max_eq_right hmy]
        exact List.mem_cons_self y ys
      · left
        rw [List.foldl_cons, h, Nat.max_eq_left hmy]
    · right
      rw [List.foldl_cons]
      exact List.mem_cons_of_mem y h

/-- `_RetryQueue.getLatestGroup` returns none exactly when nothing is due,
and otherwise the maximum generation among the due entries. -/
theorem getLatestGroup_spec (q : RetryQueue) (now : ℚ) :
    (q.getLatestGroup now = none ↔ q.dueEntries now = []) ∧
    (∀ g, q.getLatestGroup now = some g →
      (∃ e ∈ q.dueEntries now, e.group = g) ∧
      ∀ e ∈ q.dueEntries now, e.group ≤ g) := by
  unfold RetryQueue.getLatestGroup
  cases hdue : q.dueEntries now with
  | nil => simp
  | cons e es =>
    constructor
    · simp [List.foldl_cons, optMax, foldl_optMax_some]
    · intro g hg
      rw [List.map_cons, List.foldl_cons] at hg
      have h0 : optMax none e.group = some e.group := rfl
      rw [h0, foldl_optMax_some] at hg
      obtain rfl : (es.map (·.group)).foldl max e.group = g := by
        injection hg
      constructor
      · rcases foldl_max_mem (es.map (·.group)) e.group with h | h
        · exact ⟨e, by simp, h.symm⟩
        · obtain ⟨e', he', hgr⟩ := List.mem_map.mp h
          exact ⟨e', by simp [he'], hgr⟩
      · intro e' he'
        rcases List.mem_cons.mp he' with rfl | he'
        · exact (foldl_max_le (es.map (·.group)) e'.group).1
        · exact (foldl_max_le (es.map (·.group)) e.group).2 e'.group
            (List.mem_map.mpr ⟨e', he', rfl⟩)

/-- `_RequestQueue.add` with a non-empty source preserves the queue
invariant. -/
theorem add_inv (q : RequestQueue) (t : ReqObject × Option Nat)
    (ts : List (ReqObject × Option Nat)) (it : IterState) (hInv : q.Inv) :
    (q.add (t :: ts) it).1.Inv := by
  obtain ⟨hpw, hlt⟩ := hInv
  refine ⟨List.pairwise_cons.mpr ⟨fun e he => hlt e he, hpw⟩, ?_⟩
  intro e he
  rcases List.mem_cons.mp he with rfl | he
  · simp [RequestQueue.add]
  · exact Nat.lt_succ_of_lt (hlt e he)

/-- `_RequestQueue.pop` preserves the queue invariant and the generation
counter. -/
theorem pop_inv (q : RequestQueue) (r : PopResult) (q' : RequestQueue)
    (oi : Option IterState) (hpop : q.pop = some (r, q', oi)) (hInv : q.Inv) :
    q'.Inv ∧ q'.group = q.group := by
  obtain ⟨hpw, hlt⟩ := hInv
  unfold RequestQueue.pop at hpop
  cases hq : q.queue with
  | nil => rw [hq] at hpop; exact absurd hpop (by simp)
  | cons e rest =>
    rw [hq] at hpop
    rw [hq] at hpw hlt
    dsimp only at hpop
    cases hp : e.pending with
    | cons t ps =>
      rw [hp] at hpop
      dsimp only at hpop
      simp only [Option.some.injEq, Prod.mk.injEq] at hpop
      obtain ⟨-, hq', -⟩ := hpop
      subst hq'
      constructor
      · constructor
        · exact List.pairwise_cons.mpr
            ⟨fun b hb => (List.pairwise_cons.mp hpw).1 b hb,
             (List.pairwise_cons.mp hpw).2⟩
        · intro x hx
          rcases List.mem_cons.mp hx with rfl | hx
          · exact hlt e (by simp)
          · exact hlt x (by simp [hx])
      · rfl
    | nil =>
      rw [hp] at hpop
      dsimp only at hpop
      simp only [Option.some.injEq, Prod.mk.injEq] at hpop
      obtain ⟨-, hq', -⟩ := hpop
      subst hq'
      exact ⟨⟨(List.pairwise_cons.mp hpw).2,
        fun x hx => hlt x (by simp [hx])⟩, rfl⟩

/-- Under the invariant, the head entry carries the greatest generation. -/
theorem head_max (q : RequestQueue) (hInv : q.Inv) :
    ∀ e ∈ q.queue, ∃ g, q.getLatestGroup = some g ∧ e.group ≤ g := by
  obtain ⟨hpw, -⟩ := hInv
  intro e he
  cases hq : q.queue with
  | nil => rw [hq] at he; exact absurd he (by simp)
  | cons h t =>
    rw [hq] at he hpw
    refine ⟨h.group, by simp [RequestQueue.getLatestGroup, hq], ?_⟩
    rcases List.mem_cons.mp he with rfl | he
    · exact le_refl _
    · exact le_of_lt ((List.pairwise_cons.mp hpw).1 e he)

/-! ### Claim theorems -/

/-- C1 (counterexample): when the Task Queue's generation equals the Retry
Queue's due generation, the dispatch loop does NOT take from the Task Queue
(the condition `reqGroup > retryGroup` at `simple_requests.py:361` is strict,
so the else-branch pops the retry queue); the claim asserts the Task Queue
wins this tie. -/
theorem dispatch_tie_counterexample :
    takeFromRequestQueue (some 5) (some 5) = false := rfl

/-- C1 (amended): where at least one queue offers a candidate, the loop
takes from the Task Queue iff the Retry Queue offers nothing or the Task
Queue's generation is strictly greater than the Retry Queue's due
generation — on equality the Retry Queue wins — and the Retry Queue's due
generation is the maximum generation among entries whose scheduled time has
elapsed. -/
theorem dispatch_queue_preference (qg rg : Nat) (q : RetryQueue) (now : ℚ) :
    takeFromRequestQueue (some qg) none = true ∧
    takeFromRequestQueue none (some rg) = false ∧
    (takeFromRequestQueue (some qg) (some rg) = true ↔ rg < qg) ∧
    (q.getLatestGroup now = none ↔ q.dueEntries now = []) ∧
    (∀ g, q.getLatestGroup now = some g →
      (∃ e ∈ q.dueEntries now, e.group = g) ∧
      ∀ e ∈ q.dueEntries now, e.group ≤ g) := by
  refine ⟨rfl, rfl, ?_, (getLatestGroup_spec q now).1, (getLatestGroup_spec q now).2⟩
  simp [takeFromRequestQueue]

/-- C1 (witness): a newer batch generation beats an older due retry, and the
sample retry queue's due generation 2 is witnessed by an entry. -/
theorem dispatch_queue_preference_witness :
    takeFromRequestQueue (some 3) (some 2) = true ∧
    (∃ e ∈ sampleRetryQueue.dueEntries 10, e.group = 2) := by
  refine ⟨(dispatch_queue_preference 3 2 sampleRetryQueue 10).2.2.1.mpr (by omega), ?_⟩
  refine ((dispatch_queue_preference 3 2 sampleRetryQueue 10).2.2.2.2 2 ?_).1
  norm_num [RetryQueue.getLatestGroup, RetryQueue.dueEntries, sampleRetryQueue,
    List.takeWhile, optMax]

/-- C2: for an ordered-mode batch, the consumed sequence follows submission
order — the k-th consumed pair has ordinal index k, each consumed bundle is
the one that arrived for that index, and the expected index advances by one
per yield — for every interleaving of arrivals and `next()` calls. -/
theorem ordered_mode_submission_order (tr : List BatchEv) (pending : Int) :
    (runTrace (orderedInit pending) tr).2.map Prod.fst =
      List.range (runTrace (orderedInit pending) tr).2.length ∧
    (∀ p ∈ (runTrace (orderedInit pending) tr).2, BatchEv.arrive p.1 p.2 ∈ tr) ∧
    (runTrace (orderedInit pending) tr).1.currentIndex =
      some (runTrace (orderedInit pending) tr).2.length := by
  obtain ⟨h1, h2, h3⟩ := runTrace_ordered tr (orderedInit pending) 0 rfl
  refine ⟨by rw [h1, List.range_eq_range'], ?_, by simpa using h2⟩
  intro p hp
  rcases h3 p hp with hmem | harr
  · simp [orderedInit] at hmem
  · exact harr

/-- C2 (witness): on a trace where slot 1's outcome arrives first, ordered
consumption still yields index order, and the slot-1 pair arrived in the
trace. -/
theorem ordered_mode_submission_order_witness :
    (runTrace (orderedInit 2) sampleTrace).2.map Prod.fst =
      List.range (runTrace (orderedInit 2) sampleTrace).2.length ∧
    BatchEv.arrive 1 bundleHTTP ∈ sampleTrace := by
  refine ⟨(ordered_mode_submission_order sampleTrace 2).1, ?_⟩
  exact (ordered_mode_submission_order sampleTrace 2).2.1 (1, bundleHTTP) (by decide)

/-- C3: under Strict, a task whose every attempt fails with an HTTP error is
attempted exactly 3 times, each of the two retries scheduled with a 2-second
delay, and the third attempt's failure is delivered; a task failing with a
non-HTTP error is delivered after its single attempt, never retried. -/
theorem strict_retry_three_attempts (b b' : Bundle) (s idx k k' : Nat) (e : PyErr)
    (hb : b.exception = some (.httpError s))
    (hb' : b'.exception = some e) (hh : isHTTP (some e) = false)
    (hg : e ≠ .greenletExit) :
    attemptsRun Strict.retry b idx (k + 3) 0 = (3, [2, 2]) ∧
    responseRoute Strict.retry b idx 2 false 0 = .deliver b idx ∧
    attemptsRun Strict.retry b' idx (k' + 1) 0 = (1, []) := by
  have h1 : responseRoute Strict.retry b idx 0 false 0 = .enqueueRetry 2 (0 + 2) 1 := by
    simp [responseRoute, hb, Strict.retry, isHTTP]
  have h2 : responseRoute Strict.retry b idx 1 false 0 = .enqueueRetry 2 (0 + 2) 2 := by
    simp [responseRoute, hb, Strict.retry, isHTTP]
  have h3 : responseRoute Strict.retry b idx 2 false 0 = .deliver b idx := by
    simp [responseRoute, hb, Strict.retry, isHTTP]
  have hroute : responseRoute Strict.retry b' idx 0 false 0 = .deliver b' idx := by
    cases e <;> simp_all [responseRoute, Strict.retry, isHTTP]
  have e3 : attemptsRun Strict.retry b idx (k + 1) 2 = (3, []) := by
    rw [attemptsRun, h3]
  have e2 : attemptsRun Strict.retry b idx (k + 1 + 1) 1 = (3, [2]) := by
    rw [attemptsRun, h2]
    simp [e3]
  refine ⟨?_, h3, ?_⟩
  · show attemptsRun Strict.retry b idx (k + 1 + 1 + 1) 0 = (3, [2, 2])
    rw [attemptsRun, h1]
    simp [e2]
  · rw [attemptsRun, hroute]

/-- C3 (witness): the HTTP-failing bundle is attempted 3 times with delays
[2, 2]; the transport-failing bundle is attempted once with no retry. -/
theorem strict_retry_three_attempts_witness :
    attemptsRun Strict.retry bundleHTTP 0 3 0 = (3, [2, 2]) ∧
    attemptsRun Strict.retry bundleOther 0 1 0 = (1, []) := by
  have h := strict_retry_three_attempts bundleHTTP bundleOther 500 0 0 0
    (.otherError 7) rfl rfl rfl (by decide)
  exact ⟨h.1, h.2.2⟩

/-- C4: under Backoff, the delay for an HTTP failure is
`min(2^(numTries-2), 60)` for attempts 1 through 10 — the sequence
0.5, 1, 2, 4, 8, 16, 32, 60, 60, 60 — and negative from attempt 11 on; a
non-HTTP failure gets 10 seconds at attempt 1 and a negative delay after. -/
theorem backoff_delay_schedule (b b' : Bundle) (s : Nat)
    (hb : b.exception = some (.httpError s)) (hb' : isHTTP b'.exception = false) :
    (∀ n : Nat, 1 ≤ n → n ≤ 10 →
      Backoff.retry b n = min ((2 : ℚ) ^ ((n : ℤ) - 2)) 60) ∧
    (List.range 10).map (fun k => Backoff.retry b (k + 1)) =
      [1/2, 1, 2, 4, 8, 16, 32, 60, 60, 60] ∧
    (∀ n : Nat, 11 ≤ n → Backoff.retry b n < 0) ∧
    Backoff.retry b' 1 = 10 ∧
    (∀ n : Nat, 1 < n → Backoff.retry b' n < 0) := by
  refine ⟨?_, ?_, ?_, ?_, ?_⟩
  · intro n h1 h10
    simp [Backoff.retry, hb, isHTTP, show n < 11 by omega]
  · norm_num [List.range_succ, Backoff.retry, hb, isHTTP, min_def]
  · intro n h11
    simp [Backoff.retry, hb, isHTTP, show ¬ n < 11 by omega]
  · simp [Backoff.retry, hb']
  · intro n h1
    simp [Backoff.retry, hb', show ¬ n == 1 by simpa using by omega]

/-- C4 (witness): the first HTTP-error delay is `min(2^(-1), 60)` (a half
second) and the single non-HTTP retry delay is 10 seconds. -/
theorem backoff_delay_schedule_witness :
    Backoff.retry bundleHTTP 1 = min ((2 : ℚ) ^ ((1 : ℤ) - 2)) 60 ∧
    Backoff.retry bundleOther 1 = 10 := by
  have h := backoff_delay_schedule bundleHTTP bundleOther 500 rfl rfl
  exact ⟨h.1 1 le_rfl (by omega), h.2.2.2.1⟩

/-- C5: one pass of `next()` reports exhaustion exactly when the in-flight
count is zero, the done flag is set, and the buffer is empty; otherwise it
yields a result or blocks. -/
theorem iterator_exhaustion_iff (st : IterState) :
    nextStep st = .stopped ↔
      (st.inflight = 0 ∧ st.done = true ∧ st.responses = []) := by
  unfold nextStep
  split
  · simp_all
  · rename_i h
    cases hf : findDeliverable st <;> simp_all

/-- C6: a failure that reaches the retry decision (not soft-stopped, not a
mid-flight kill) is delivered immediately when the strategy's delay is
negative, and with a non-negative delay (including zero) is enqueued into
the Retry Queue scheduled at `now + wait` — present in the queue with that
scheduled time and attempt count — instead of being delivered. -/
theorem failure_retry_decision (σ : Bundle → Nat → ℚ) (b : Bundle) (e : PyErr)
    (idx n iterId g : Nat) (now : ℚ) (rq : RetryQueue)
    (hb : b.exception = some e) (hg : e ≠ .greenletExit) :
    (σ b (n + 1) < 0 → responseRoute σ b idx n false now = .deliver b idx) ∧
    (0 ≤ σ b (n + 1) →
      responseRoute σ b idx n false now =
        .enqueueRetry (σ b (n + 1)) (now + σ b (n + 1)) (n + 1) ∧
      ∃ entry ∈ (rq.add b iterId g idx (n + 1) (σ b (n + 1)) now).sortedqueue,
        entry.bundle = b ∧ entry.nextAttempt = now + σ b (n + 1) ∧
        entry.numTries = n + 1) := by
  constructor
  · intro hneg
    cases e <;> simp_all [responseRoute, not_le.mpr hneg]
  · intro hpos
    constructor
    · cases e <;> simp_all [responseRoute]
    · exact ⟨_, insertByTime_self_mem _ _, rfl, rfl, rfl⟩

/-- C6 (witness): the first Strict attempt on an HTTP failure is enqueued
with delay 2 scheduled at time 2. -/
theorem failure_retry_decision_witness :
    responseRoute Strict.retry bundleHTTP 0 0 false 0 =
      .enqueueRetry (Strict.retry bundleHTTP 1) (0 + Strict.retry bundleHTTP 1) 1 := by
  have h := failure_retry_decision Strict.retry bundleHTTP (.httpError 500)
    0 0 0 0 0 ⟨[]⟩ rfl (by decide)
  exact (h.2 (by norm_num [Strict.retry, bundleHTTP, isHTTP])).1

/-- C7: a task whose request fails to build (unsupported type or an
exception during preparation) is delivered directly to its batch's iterator
slot with the exception and traceback recorded, the retry queue untouched
and no worker launched (the retry strategy is not an input of this step). -/
theorem build_failure_terminal (prepare : Nat → Except PyErr Nat)
    (strToReq : String → Nat) (task : ReqObject × Option Nat) (it : IterState)
    (idx : Nat) (rq : RetryQueue) (e : PyErr)
    (hbuild : buildRequest prepare strToReq task.1 = .error e) :
    ∃ b : Bundle,
      taskDispatch prepare strToReq task it idx rq =
        (.deliveredBuildFailure b, iterAdd it b idx, rq) ∧
      b.exception = some e ∧ b.hasTraceback = true ∧ b.request = task.1 ∧
      (iterAdd it b idx).responses = odInsert it.responses idx b ∧
      (iterAdd it b idx).inflight = it.inflight - 1 := by
  refine ⟨⟨task.1, none, some e, true, task.2, task.2.isSome⟩, ?_, rfl, rfl, rfl, rfl, rfl⟩
  unfold taskDispatch
  simp only [hbuild]

/-- C7 (witness): an unsupported request object is rejected with a
`TypeError` and delivered directly. -/
theorem build_failure_terminal_witness :
    ∃ b : Bundle,
      taskDispatch prepareOk (fun _ => 0) (.other, none) iterSample 0 ⟨[]⟩ =
        (.deliveredBuildFailure b, iterAdd iterSample b 0, ⟨[]⟩) ∧
      b.exception = some .typeError ∧ b.hasTraceback = true ∧ b.request = .other ∧
      (iterAdd iterSample b 0).responses = odInsert iterSample.responses 0 b ∧
      (iterAdd iterSample b 0).inflight = iterSample.inflight - 1 :=
  build_failure_terminal prepareOk (fun _ => 0) (.other, none) iterSample 0 ⟨[]⟩
    .typeError rfl

/-- C8: after `stop(killExecuting=False)` the request queue is emptied with
every batch's iterator marked done and the pool merely tagged; a
soft-stopped worker's failure is delivered as-is — the same action for every
retry strategy, so no retry is scheduled — a success is delivered as usual,
and an iterator with nothing in flight, done, and an empty buffer
terminates. -/
theorem soft_stop_delivery (s : EngineState) (σ σ' : Bundle → Nat → ℚ)
    (b : Bundle) (e : PyErr) (idx n : Nat) (now : ℚ) (st : IterState)
    (hb : b.exception = some e) (hg : e ≠ .greenletExit)
    (hdone : st.done = true) (hin : st.inflight = 0) (hresp : st.responses = []) :
    ((stopEngine s false).1.requestQueue.queue = [] ∧
     (stopEngine s false).2.1 =
       s.requestQueue.queue.map (fun qe => { qe.iter with done := true }) ∧
     (∀ it ∈ (stopEngine s false).2.1, it.done = true) ∧
     (stopEngine s false).2.2 = .tagStopped) ∧
    responseRoute σ b idx n true now = .deliver b idx ∧
    responseRoute σ b idx n true now = responseRoute σ' b idx n true now ∧
    (∀ b' : Bundle, b'.exception = none →
      responseRoute σ b' idx n true now = .deliver b' idx) ∧
    nextStep st = .stopped := by
  refine ⟨⟨rfl, rfl, ?_, rfl⟩, ?_, ?_, ?_, ?_⟩
  · intro it hit
    simp [stopEngine, RequestQueue.stopAll] at hit
    obtain ⟨qe, -, rfl⟩ := hit
    rfl
  · cases e <;> simp_all [responseRoute]
  · cases e <;> simp_all [responseRoute]
  · intro b' hb'
    simp [responseRoute, hb']
  · simp [nextStep, hdone, hin, hresp]

/-- C8 (witness): a soft-stopped HTTP failure is delivered as-is and the
drained sample iterator terminates. -/
theorem soft_stop_delivery_witness :
    responseRoute Strict.retry bundleHTTP 0 0 true 0 = .deliver bundleHTTP 0 ∧
    nextStep iterSample = .stopped := by
  have h := soft_stop_delivery engineSample Strict.retry Backoff.retry bundleHTTP
    (.httpError 500) 0 0 0 iterSample rfl (by decide) rfl rfl rfl
  exact ⟨h.2.1, h.2.2.2.2⟩

/-- C9 (counterexample): submitting an empty iterable assigns no generation
at all — the queue and the generation counter are unchanged and no entry is
created (the batch is only marked done) — contradicting the claim that every
submitting call is assigned a generation. -/
theorem empty_submission_no_generation :
    (RequestQueue.add ⟨[], 0⟩ [] iterSample).1 = ⟨[], 0⟩ ∧
    (RequestQueue.add ⟨[], 0⟩ [] iterSample).2 =
      some { iterSample with done := true } := ⟨rfl, rfl⟩

/-- C9 (amended): a call submitting a NON-EMPTY iterable is assigned the
current counter value as generation — strictly greater than every pending
generation — and the counter then increments, so generations are never
reused and increase with submission time; the invariant (descending
generations, all below the counter) is preserved by add, pop and stop, and
under it the head entry carries the maximum generation; an empty iterable
creates no entry and assigns no generation. -/
theorem generation_priority (q : RequestQueue) (t : ReqObject × Option Nat)
    (ts : List (ReqObject × Option Nat)) (it : IterState) (hInv : q.Inv) :
    ((q.add (t :: ts) it).1.group = q.group + 1 ∧
     (q.add (t :: ts) it).1.queue = ⟨ts, t, it, q.group, 0⟩ :: q.queue ∧
     (∀ e ∈ q.queue, e.group < q.group) ∧
     (q.add (t :: ts) it).1.Inv) ∧
    q.add [] it = (q, some { it with done := true }) ∧
    (∀ r q' oi, q.pop = some (r, q', oi) → q'.Inv ∧ q'.group = q.group) ∧
    (q.stopAll.1.Inv ∧ q.stopAll.1.group = q.group) ∧
    (∀ e ∈ q.queue, ∃ g, q.getLatestGroup = some g ∧ e.group ≤ g) := by
  refine ⟨⟨rfl, rfl, hInv.2, add_inv q t ts it hInv⟩, rfl,
    fun r q' oi h => pop_inv q r q' oi h hInv, ⟨?_, rfl⟩, head_max q hInv⟩
  simp [RequestQueue.Inv, RequestQueue.stopAll]

/-- C9 (witness): adding a one-task batch to an empty queue assigns
generation 0 and bumps the counter to 1, and the head entry carries the
maximum generation. -/
theorem generation_priority_witness :
    (RequestQueue.add ⟨[], 0⟩ [(.other, none)] iterSample).1.group = 1 ∧
    (RequestQueue.add ⟨[], 0⟩ [(.other, none)] iterSample).1.queue =
      [⟨[], (.other, none), iterSample, 0, 0⟩] := by
  have h := generation_priority ⟨[], 0⟩ (.other, none) [] iterSample
    (by simp [RequestQueue.Inv])
  exact ⟨h.1.1, h.1.2.1⟩

/-- C10: `stop()` with no argument is `stop(killExecuting=True)`: the pool
is killed (rather than tagged for soft stop, which requires an explicit
`False`), and a killed worker's `GreenletExit` outcome only withdraws the
slot — no outcome is delivered for it. -/
theorem stop_default_force_kill (s : EngineState) (σ : Bundle → Nat → ℚ)
    (b : Bundle) (idx n : Nat) (stopped : Bool) (now : ℚ) :
    stopEngine s = stopEngine s true ∧
    (stopEngine s true).2.2 = .killAll ∧
    (stopEngine s false).2.2 = .tagStopped ∧
    responseRoute σ { b with exception := some .greenletExit } idx n stopped now =
      .withdraw :=
  ⟨rfl, rfl, rfl, rfl⟩

end SimpleRequests
